import Mathlib

/-!
Verification of the option-chain annualized-return script (`option_chain.py`).

The script computes, for each option quote row, an annualized return and a
distance percentage, clamps non-finite annualized returns to zero, filters
rows by a return threshold and by in-the-money status, concatenates the
per-expiration-date batches, and builds a strike × expiration-date pivot.

We model pandas float arithmetic with `EFloat`: a rational number, positive
or negative infinity, or NaN, with IEEE-style division and multiplication
(division of a nonzero finite value by zero gives a signed infinity, `0/0`
gives NaN, NaN propagates).  DataFrames become lists of records; the
column-missing `KeyError` that pandas raises when a script indexes a column
that was never created becomes an `Except.error`.
-/

/-- A pandas/numpy float value: finite rational, ±∞, or NaN. -/
inductive EFloat where
  | fin (q : ℚ)
  | pinf
  | ninf
  | nan
deriving DecidableEq, Repr

namespace EFloat

/-- IEEE-style division (zero is unsigned, as all our inputs are plain
numbers): finite/0 is a signed infinity, 0/0 is NaN, ∞/∞ is NaN,
finite/∞ is 0, NaN propagates. -/
def div : EFloat → EFloat → EFloat
  | .fin x, .fin y =>
      if y = 0 then (if x = 0 then .nan else if 0 < x then .pinf else .ninf)
      else .fin (x / y)
  | .fin _, .pinf => .fin 0
  | .fin _, .ninf => .fin 0
  | .fin _, .nan => .nan
  | .pinf, .fin y => if 0 ≤ y then .pinf else .ninf
  | .ninf, .fin y => if 0 ≤ y then .ninf else .pinf
  | .pinf, _ => .nan
  | .ninf, _ => .nan
  | .nan, _ => .nan

/-- IEEE-style multiplication: ∞ times a nonzero value is a signed infinity,
∞ times 0 is NaN, NaN propagates. -/
def mul : EFloat → EFloat → EFloat
  | .fin x, .fin y => .fin (x * y)
  | .fin x, .pinf => if 0 < x then .pinf else if x < 0 then .ninf else .nan
  | .fin x, .ninf => if 0 < x then .ninf else if x < 0 then .pinf else .nan
  | .fin _, .nan => .nan
  | .pinf, .fin y => if 0 < y then .pinf else if y < 0 then .ninf else .nan
  | .ninf, .fin y => if 0 < y then .ninf else if y < 0 then .pinf else .nan
  | .pinf, .pinf => .pinf
  | .pinf, .ninf => .ninf
  | .ninf, .pinf => .ninf
  | .ninf, .ninf => .pinf
  | .pinf, .nan => .nan
  | .ninf, .nan => .nan
  | .nan, _ => .nan

/-- Whether the value is an ordinary (finite, non-NaN) number. -/
def isFinite : EFloat → Bool
  | .fin _ => true
  | _ => false

/-- The rational payload of a finite value, `none` for ±∞/NaN. -/
def toRatOpt : EFloat → Option ℚ
  | .fin q => some q
  | _ => none

/-- Pandas comparison of a float column against a scalar threshold
(`series > t`): NaN compares as `false`, `+∞ > t` is `true`. -/
def gtQ : EFloat → ℚ → Bool
  | .fin x, t => decide (t < x)
  | .pinf, _ => true
  | .ninf, _ => false
  | .nan, _ => false

end EFloat

/-- Models lines 28-29 of the source: `.replace([inf, -inf], 0)` followed by
`.fillna(0)` on the `Annualized Return` column — every non-finite value
becomes the finite number 0. -/
def clampNonfinite : EFloat → EFloat
  | .fin q => .fin q
  | _ => .fin 0

/-- One raw option quote row as fetched from the quote source, before the
derived columns exist. -/
structure RawQuote where
  strike : ℚ
  bid : ℚ
  ask : ℚ
  lastPrice : ℚ
  inTheMoney : Bool
deriving DecidableEq, Repr

/-- A quote row after `calculate_annualized_return` added the
`Annualized Return` and `Distance Perc` columns. -/
structure CalcQuote extends RawQuote where
  annualizedReturn : EFloat
  distancePerc : EFloat
deriving DecidableEq, Repr

/-- A quote row after the loop body tagged it with the
`Expiration Date` and `Stock Price` columns. -/
structure TaggedQuote extends CalcQuote where
  expirationDate : String
  stockPrice : ℚ
deriving DecidableEq, Repr

/-- Source line 21: put annualized return before the clamp,
`bid / (strike - bid) * 365 / days_to_expiration * 100` in float
arithmetic. -/
def putAnnRaw (q : RawQuote) (days_to_expiration : ℤ) : EFloat :=
  ((((EFloat.fin q.bid).div (EFloat.fin (q.strike - q.bid))).mul
      (EFloat.fin 365)).div (EFloat.fin (days_to_expiration : ℚ))).mul (EFloat.fin 100)

/-- Source line 22: put distance,
`(stock_price - bid - strike) / stock_price`; never clamped. -/
def putDistRaw (q : RawQuote) (stock_price : ℚ) : EFloat :=
  (EFloat.fin (stock_price - q.bid - q.strike)).div (EFloat.fin stock_price)

/-- Source line 25: call annualized return before the clamp,
`bid / stock_price * 365 / days_to_expiration * 100` in float arithmetic. -/
def callAnnRaw (q : RawQuote) (stock_price : ℚ) (days_to_expiration : ℤ) : EFloat :=
  ((((EFloat.fin q.bid).div (EFloat.fin stock_price)).mul
      (EFloat.fin 365)).div (EFloat.fin (days_to_expiration : ℚ))).mul (EFloat.fin 100)

/-- Source line 26: call distance,
`(strike + bid - stock_price) / stock_price * 100`; never clamped. -/
def callDistRaw (q : RawQuote) (stock_price : ℚ) : EFloat :=
  ((EFloat.fin (q.strike + q.bid - stock_price)).div (EFloat.fin stock_price)).mul
    (EFloat.fin 100)

/-- The `type == 'puts'` branch applied to one row, including the clamp of
the annualized-return column that runs after the branch. -/
def calcPutRow (stock_price : ℚ) (days_to_expiration : ℤ) (q : RawQuote) : CalcQuote :=
  { toRawQuote := q
    annualizedReturn := clampNonfinite (putAnnRaw q days_to_expiration)
    distancePerc := putDistRaw q stock_price }

/-- The `type == 'calls'` branch applied to one row, including the clamp of
the annualized-return column that runs after the branch. -/
def calcCallRow (stock_price : ℚ) (days_to_expiration : ℤ) (q : RawQuote) : CalcQuote :=
  { toRawQuote := q
    annualizedReturn := clampNonfinite (callAnnRaw q stock_price days_to_expiration)
    distancePerc := callDistRaw q stock_price }

/-- Models `calculate_annualized_return` (source lines 6-32).  For `type` equal to
`"puts"` or `"calls"` the corresponding per-row formulas run and the
annualized-return column is clamped.  For any other `type` neither branch
assigns the `Annualized Return` column, so line 28
(`option_data['Annualized Return'].replace(...)`) indexes a column that was
never created and pandas raises a `KeyError`. -/
def calculate_annualized_return (option_data : List RawQuote) (stock_price : ℚ)
    (days_to_expiration : ℤ) (ty : String) : Except String (List CalcQuote) :=
  if ty = "puts" then
    Except.ok (option_data.map (calcPutRow stock_price days_to_expiration))
  else if ty = "calls" then
    Except.ok (option_data.map (calcCallRow stock_price days_to_expiration))
  else
    Except.error "KeyError: Annualized Return"

/-- Source line 45: default annualized-return threshold for calls. -/
def calls_threshold : ℚ := 7

/-- Source line 46: default annualized-return threshold for puts. -/
def puts_threshold : ℚ := 15

/-- The two row filters from the loop body (source lines 69-73 for calls,
80-83 for puts): when `return_filter` is set, keep rows whose
`Annualized Return` is strictly above the threshold; when `in_the_money` is
not set, keep rows whose `inTheMoney` flag is `False`. -/
def filterRows (rows : List CalcQuote) (return_filter : Bool) (threshold : ℚ)
    (in_the_money : Bool) : List CalcQuote :=
  let rows1 := if return_filter then
      rows.filter (fun q => q.annualizedReturn.gtQ threshold)
    else rows
  if in_the_money = false then
    rows1.filter (fun q => decide (q.inTheMoney = false))
  else rows1

/-- Source lines 74-75 / 84-85: tag each row with the batch's
`Expiration Date` and the ticker's `Stock Price`. -/
def tagRow (date : String) (stock_price : ℚ) (q : CalcQuote) : TaggedQuote :=
  { toCalcQuote := q, expirationDate := date, stockPrice := stock_price }

/-- The data the quote source supplies for one expiration date: the date,
the computed days to expiration, and the raw call and put quote rows. -/
structure ChainData where
  date : String
  days_to_expiration : ℤ
  calls : List RawQuote
  puts : List RawQuote
deriving DecidableEq, Repr

/-- One iteration of the loop over expiration dates (source lines 61-86):
compute returns for the calls and puts of one date, filter, and tag with
date and stock price.  Returns the (calls, puts) batch appended to
`all_calls` / `all_puts`. -/
def processChain (stock_price : ℚ) (return_filter : Bool) (in_the_money : Bool)
    (c : ChainData) : List TaggedQuote × List TaggedQuote :=
  let calls := c.calls.map (calcCallRow stock_price c.days_to_expiration)
  let calls := filterRows calls return_filter calls_threshold in_the_money
  let calls := calls.map (tagRow c.date stock_price)
  let puts := c.puts.map (calcPutRow stock_price c.days_to_expiration)
  let puts := filterRows puts return_filter puts_threshold in_the_money
  let puts := puts.map (tagRow c.date stock_price)
  (calls, puts)

/-- The pure core of `fetch_and_calculate_option_returns` (source lines
34-92), with the network fetch abstracted into the `expiration_chains`
argument (one `ChainData` per expiration date, in the order the quote
source returns the dates).  When the expiration-date list is empty the
Python function executes a bare `return`, i.e. yields `None` (modelled as
`none`); otherwise it concatenates the per-date batches and returns the
pair `(combined_puts, combined_calls)` — puts first, as on source line
92. -/
def fetch_and_calculate_option_returns (stock_price : ℚ)
    (expiration_chains : List ChainData) (return_filter : Bool)
    (in_the_money : Bool) : Option (List TaggedQuote × List TaggedQuote) :=
  if expiration_chains.isEmpty then none
  else
    let per := expiration_chains.map (processChain stock_price return_filter in_the_money)
    let combined_calls := (per.map Prod.fst).flatten
    let combined_puts := (per.map Prod.snd).flatten
    some (combined_puts, combined_calls)

/-- Models the tuple unpacking `puts, calls = fetch_and_calculate_option_returns(...)`
on source line 122: unpacking `None` raises a `TypeError` in Python. -/
def main_unpack (r : Option (List TaggedQuote × List TaggedQuote)) :
    Except String (List TaggedQuote × List TaggedQuote) :=
  match r with
  | some pr => Except.ok pr
  | none => Except.error "TypeError: cannot unpack non-iterable NoneType object"

/-- Pandas mean of a group of float values (`aggfunc='mean'` with the
default `skipna`): NaNs are dropped; an all-NaN or empty group is NaN; a
group holding both infinities is NaN; a group holding one infinity is that
infinity; otherwise the arithmetic mean of the finite values. -/
def emean (l : List EFloat) : EFloat :=
  let vals := l.filter (fun x => decide (x ≠ EFloat.nan))
  if vals.isEmpty then EFloat.nan
  else if vals.all (fun x => x.isFinite) then
    EFloat.fin ((vals.filterMap EFloat.toRatOpt).sum / vals.length)
  else if vals.contains EFloat.pinf ∧ vals.contains EFloat.ninf then EFloat.nan
  else if vals.contains EFloat.pinf then EFloat.pinf
  else EFloat.ninf

/-- Models `build_pivot_table` (source lines 94-113) cell-wise: the pivot
is indexed by strike with one column per (expiration date, metric) pair,
where metric is the `bid` or `Annualized Return` column; the `swaplevel`
and `sort_index` calls only reorder columns and do not change any cell.
The cell for a (strike, date) pair holds the mean of the metric over the
rows with that strike and date, and a (strike, date) combination with no
rows is the explicit missing marker `NaN`, modelled as `none`. -/
def build_pivot_table (data : List TaggedQuote) (metric : TaggedQuote → EFloat)
    (strike : ℚ) (date : String) : Option EFloat :=
  let grp := data.filter (fun q => decide (q.strike = strike ∧ q.expirationDate = date))
  if grp.isEmpty then none
  else some (emean (grp.map metric))

/-- The `bid` value column of the pivot. -/
def metricBid (q : TaggedQuote) : EFloat := EFloat.fin q.bid

/-- The `Annualized Return` value column of the pivot. -/
def metricAnnualizedReturn (q : TaggedQuote) : EFloat := q.annualizedReturn

/-- A computed quote row with a given annualized return, used to check the
filter on the spec's `[5, 8, 20]` example batch. -/
def exRow (v : ℚ) : CalcQuote :=
  { strike := 1, bid := 1, ask := 1, lastPrice := 1, inTheMoney := false
    annualizedReturn := EFloat.fin v, distancePerc := EFloat.fin 0 }

/-- A concrete put quote row used to exhibit the order of the returned
pair. -/
def cPutRaw : RawQuote := ⟨10, 1, 1, 1, false⟩

/-- A concrete one-date option chain with no calls and one put. -/
def cChain : ChainData :=
  { date := "d1", days_to_expiration := 30, calls := [], puts := [cPutRaw] }

/-- A concrete tagged quote row for the pivot witness. -/
def pq1 : TaggedQuote :=
  { strike := 10, bid := 1, ask := 1, lastPrice := 1, inTheMoney := false
    annualizedReturn := EFloat.fin 20, distancePerc := EFloat.fin 0
    expirationDate := "d1", stockPrice := 100 }

/-- A second concrete tagged quote row with a different strike. -/
def pq2 : TaggedQuote :=
  { strike := 12, bid := 2, ask := 2, lastPrice := 2, inTheMoney := false
    annualizedReturn := EFloat.fin 30, distancePerc := EFloat.fin 0
    expirationDate := "d1", stockPrice := 100 }

/-! ## Helper lemmas -/

lemma isFinite_clampNonfinite (x : EFloat) : (clampNonfinite x).isFinite = true := by
  cases x <;> rfl

/-- The clamped value of the shared formula shape
`b / c * 365 / d * 100` (float arithmetic, then replace ±∞/NaN by 0)
coincides with the rational-arithmetic value of the same expression, where
division by zero yields zero: whenever the float computation is finite the
two agree, and whenever it is non-finite a denominator was zero, the clamp
gives `0`, and the rational expression is `0` as well. -/
lemma clampFormula (b c d : ℚ) :
    clampNonfinite (((((EFloat.fin b).div (EFloat.fin c)).mul (EFloat.fin 365)).div
        (EFloat.fin d)).mul (EFloat.fin 100))
      = EFloat.fin (b / c * 365 / d * 100) := by
  by_cases hc : c = 0
  · subst hc
    rcases lt_trichotomy b 0 with hb | hb | hb
    · by_cases hd : (0:ℚ) ≤ d <;>
        norm_num [EFloat.div, EFloat.mul, clampNonfinite, hb.ne, hb.not_lt, hd]
    · subst hb
      norm_num [EFloat.div, EFloat.mul, clampNonfinite]
    · by_cases hd : (0:ℚ) ≤ d <;>
        norm_num [EFloat.div, EFloat.mul, clampNonfinite, hb.ne', hb, hd]
  · by_cases hd : d = 0
    · subst hd
      rcases lt_trichotomy (b / c * 365) 0 with hn | hn | hn
      · norm_num [EFloat.div, EFloat.mul, clampNonfinite, hc, hn.ne, hn.not_lt]
      · norm_num [EFloat.div, EFloat.mul, clampNonfinite, hc, hn]
      · norm_num [EFloat.div, EFloat.mul, clampNonfinite, hc, hn.ne', hn]
    · norm_num [EFloat.div, EFloat.mul, clampNonfinite, hc, hd]

/-! ## Claims -/

/-- C1: for every put quote row, `calculate_annualized_return` with type
`'puts'` maps each row through the put branch and stores
`bid / (strike - bid) * 365 / daysToExpiration * 100` as the annualized
return (the clamp only replaces a non-finite float value by `0`, which is
exactly the value the rational expression takes there); in particular for
`bid = 2`, `strike = 50`, `daysToExpiration = 30` the stored value is
`2 / (50 - 2) * 365 / 30 * 100`. -/
theorem put_return_formula :
    (∀ (option_data : List RawQuote) (stock_price : ℚ) (days_to_expiration : ℤ),
        calculate_annualized_return option_data stock_price days_to_expiration "puts"
          = Except.ok (option_data.map (calcPutRow stock_price days_to_expiration)))
  ∧ (∀ (stock_price : ℚ) (days_to_expiration : ℤ) (q : RawQuote),
        (calcPutRow stock_price days_to_expiration q).annualizedReturn
          = EFloat.fin (q.bid / (q.strike - q.bid) * 365 / (days_to_expiration : ℚ) * 100))
  ∧ (∀ stock_price : ℚ,
        (calcPutRow stock_price 30 ⟨50, 2, 0, 0, false⟩).annualizedReturn
          = EFloat.fin (2 / (50 - 2) * 365 / 30 * 100)) := by
  have key : ∀ (stock_price : ℚ) (days_to_expiration : ℤ) (q : RawQuote),
      (calcPutRow stock_price days_to_expiration q).annualizedReturn
        = EFloat.fin (q.bid / (q.strike - q.bid) * 365 / (days_to_expiration : ℚ) * 100) :=
    fun _ days q => clampFormula q.bid (q.strike - q.bid) ((days : ℚ))
  refine ⟨fun _ _ _ => rfl, key, fun sp => ?_⟩
  rw [key sp 30 ⟨50, 2, 0, 0, false⟩]
  norm_num

/-- C2: for every call quote row, `calculate_annualized_return` with type
`'calls'` maps each row through the call branch and stores
`bid / currentPrice * 365 / daysToExpiration * 100` as the annualized
return; in particular for `bid = 3`, `currentPrice = 100`,
`daysToExpiration = 45` the stored value is `3 / 100 * 365 / 45 * 100`. -/
theorem call_return_formula :
    (∀ (option_data : List RawQuote) (stock_price : ℚ) (days_to_expiration : ℤ),
        calculate_annualized_return option_data stock_price days_to_expiration "calls"
          = Except.ok (option_data.map (calcCallRow stock_price days_to_expiration)))
  ∧ (∀ (stock_price : ℚ) (days_to_expiration : ℤ) (q : RawQuote),
        (calcCallRow stock_price days_to_expiration q).annualizedReturn
          = EFloat.fin (q.bid / stock_price * 365 / (days_to_expiration : ℚ) * 100))
  ∧ ((calcCallRow 100 45 ⟨90, 3, 0, 0, false⟩).annualizedReturn
        = EFloat.fin (3 / 100 * 365 / 45 * 100)) := by
  have key : ∀ (stock_price : ℚ) (days_to_expiration : ℤ) (q : RawQuote),
      (calcCallRow stock_price days_to_expiration q).annualizedReturn
        = EFloat.fin (q.bid / stock_price * 365 / (days_to_expiration : ℚ) * 100) :=
    fun sp days q => clampFormula q.bid sp ((days : ℚ))
  refine ⟨fun _ _ _ => rfl, key, ?_⟩
  rw [key 100 45 ⟨90, 3, 0, 0, false⟩]
  norm_num

/-- C3: after either branch of `calculate_annualized_return`, the stored
annualized return is always a finite defined value (every division-by-zero,
infinite or NaN float result is replaced by `0` by the clamp), for every
input — including `strike = bid` for puts and `stock_price = 0` for calls;
the distance column is stored exactly as computed, with no such
replacement, and can in fact be non-finite. -/
theorem annualized_return_always_finite :
    (∀ (stock_price : ℚ) (days_to_expiration : ℤ) (q : RawQuote),
        ((calcPutRow stock_price days_to_expiration q).annualizedReturn).isFinite = true
      ∧ ((calcCallRow stock_price days_to_expiration q).annualizedReturn).isFinite = true
      ∧ (calcPutRow stock_price days_to_expiration q).distancePerc = putDistRaw q stock_price
      ∧ (calcCallRow stock_price days_to_expiration q).distancePerc = callDistRaw q stock_price)
  ∧ (∃ (stock_price : ℚ) (days_to_expiration : ℤ) (q : RawQuote),
        ((calcPutRow stock_price days_to_expiration q).distancePerc).isFinite = false) := by
  refine ⟨fun sp days q =>
    ⟨isFinite_clampNonfinite _, isFinite_clampNonfinite _, rfl, rfl⟩, ?_⟩
  exact ⟨0, 30, ⟨2, 1, 0, 0, false⟩, by
    norm_num [calcPutRow, putDistRaw, EFloat.div, EFloat.isFinite]⟩

/-- C4: with the return filter enabled and in-the-money rows not allowed,
the loop keeps exactly the rows that pass both predicates, in their
original order: a row survives iff its annualized return is strictly above
the threshold (at-or-below is dropped; for a finite return this is the
comparison `threshold < value`) and its `inTheMoney` flag is false.  The
default thresholds are `7` for calls and `15` for puts, and the `[5, 8, 20]`
batch filtered at the calls threshold keeps exactly `[8, 20]`. -/
theorem filter_semantics (rows : List CalcQuote) (threshold : ℚ) :
    filterRows rows true threshold false
      = rows.filter (fun q =>
          q.annualizedReturn.gtQ threshold && decide (q.inTheMoney = false))
    ∧ (∀ q : CalcQuote, q ∈ filterRows rows true threshold false ↔
        q ∈ rows ∧ q.annualizedReturn.gtQ threshold = true ∧ q.inTheMoney = false)
    ∧ (∀ v : ℚ, (EFloat.fin v).gtQ threshold = decide (threshold < v))
    ∧ calls_threshold = 7 ∧ puts_threshold = 15
    ∧ filterRows [exRow 5, exRow 8, exRow 20] true calls_threshold false
        = [exRow 8, exRow 20] := by
  have hflt : filterRows rows true threshold false
      = rows.filter (fun q =>
          q.annualizedReturn.gtQ threshold && decide (q.inTheMoney = false)) := by
    simp only [filterRows, if_true, eq_self_iff_true, List.filter_filter]
    exact List.filter_congr (fun q _ => Bool.and_comm _ _)
  refine ⟨hflt, ?_, fun v => rfl, rfl, rfl, by decide⟩
  intro q
  rw [hflt]
  simp [List.mem_filter, and_assoc]

/-- C7: the return-threshold filter and the in-the-money filter are
independent row predicates, so applying them in either order yields the
same row sequence; in particular the source's order (return filter first)
equals the reversed order. -/
theorem filters_commute (rows : List CalcQuote) (threshold : ℚ) :
    ((rows.filter (fun q => q.annualizedReturn.gtQ threshold)).filter
        (fun q => decide (q.inTheMoney = false))
      = (rows.filter (fun q => decide (q.inTheMoney = false))).filter
          (fun q => q.annualizedReturn.gtQ threshold))
    ∧ filterRows rows true threshold false
        = (rows.filter (fun q => decide (q.inTheMoney = false))).filter
            (fun q => q.annualizedReturn.gtQ threshold) := by
  have h : ∀ p1 p2 : CalcQuote → Bool,
      (rows.filter p1).filter p2 = (rows.filter p2).filter p1 := by
    intro p1 p2
    rw [List.filter_filter, List.filter_filter]
    exact List.filter_congr (fun q _ => Bool.and_comm _ _)
  refine ⟨h _ _, ?_⟩
  have hunf : filterRows rows true threshold false
      = (rows.filter (fun q => q.annualizedReturn.gtQ threshold)).filter
          (fun q => decide (q.inTheMoney = false)) := by
    simp only [filterRows, if_true, eq_self_iff_true]
  rw [hunf]
  exact h _ _

/-- C9: `calculate_annualized_return` only adds the two derived columns:
for a valid side it succeeds and its output, projected back to the raw
columns (`strike`, `bid`, `ask`, `lastPrice`, `inTheMoney`), is exactly the
input batch, row for row and in order; in particular the row count is
unchanged, and each row's derived fields are produced by a single
application of the per-row formula. -/
theorem calculate_frame_condition (option_data : List RawQuote) (stock_price : ℚ)
    (days_to_expiration : ℤ) (ty : String) (hty : ty = "calls" ∨ ty = "puts") :
    ∃ out : List CalcQuote,
      calculate_annualized_return option_data stock_price days_to_expiration ty
        = Except.ok out
      ∧ out.map (fun q => q.toRawQuote) = option_data
      ∧ out.length = option_data.length := by
  rcases hty with rfl | rfl
  · refine ⟨option_data.map (calcCallRow stock_price days_to_expiration), rfl, ?_, by simp⟩
    rw [List.map_map]
    have hcomp : ((fun q : CalcQuote => q.toRawQuote)
        ∘ calcCallRow stock_price days_to_expiration) = id := rfl
    rw [hcomp, List.map_id]
  · refine ⟨option_data.map (calcPutRow stock_price days_to_expiration), rfl, ?_, by simp⟩
    rw [List.map_map]
    have hcomp : ((fun q : CalcQuote => q.toRawQuote)
        ∘ calcPutRow stock_price days_to_expiration) = id := rfl
    rw [hcomp, List.map_id]

/-- Witness for C9 at a concrete batch and side. -/
theorem calculate_frame_condition_witness :
    ("calls" = "calls" ∨ "calls" = "puts")
    ∧ ∃ out : List CalcQuote,
        calculate_annualized_return [⟨50, 2, 3, 2, false⟩] 45 30 "calls" = Except.ok out
        ∧ out.map (fun q => q.toRawQuote) = [⟨50, 2, 3, 2, false⟩]
        ∧ out.length = [(⟨50, 2, 3, 2, false⟩ : RawQuote)].length :=
  ⟨Or.inl rfl, calculate_frame_condition [⟨50, 2, 3, 2, false⟩] 45 30 "calls" (Or.inl rfl)⟩

/-- C10: for a `type` argument that is neither `'calls'` nor `'puts'`,
neither branch creates the `Annualized Return` column, so the clamp step
raises a `KeyError` instead of returning the batch (unchanged or
clamped). -/
theorem calculate_bad_type_errors (option_data : List RawQuote) (stock_price : ℚ)
    (days_to_expiration : ℤ) (ty : String) (h1 : ty ≠ "puts") (h2 : ty ≠ "calls") :
    calculate_annualized_return option_data stock_price days_to_expiration ty
      = Except.error "KeyError: Annualized Return" := by
  simp [calculate_annualized_return, h1, h2]

/-- Witness for C10 at the concrete type string `"options"`. -/
theorem calculate_bad_type_errors_witness :
    ("options" ≠ "puts") ∧ ("options" ≠ "calls")
    ∧ calculate_annualized_return [⟨50, 2, 3, 2, false⟩] 45 30 "options"
        = Except.error "KeyError: Annualized Return" :=
  ⟨by decide, by decide,
    calculate_bad_type_errors [⟨50, 2, 3, 2, false⟩] 45 30 "options"
      (by decide) (by decide)⟩

/-- C8 (code bug): for a ticker whose expiration-date list is empty, the
function executes a bare `return`, yielding `None` instead of the declared
pair of DataFrames; the `puts, calls = ...` unpacking in `__main__` then
raises a `TypeError`, so the run does *not* continue quietly as the spec
describes. -/
theorem empty_expirations_crash :
    fetch_and_calculate_option_returns 5 [] true false = none
    ∧ main_unpack (fetch_and_calculate_option_returns 5 [] true false)
        = Except.error "TypeError: cannot unpack non-iterable NoneType object" :=
  ⟨rfl, rfl⟩

/-- C5 counterexample: the function returns the pair `(puts, calls)` —
puts first, as on source line 92 — not `(allCalls, allPuts)`.  On a chain
with no calls and one put, the first component of the result is the
singleton put batch, so the result is not the pair
`(allCalls, allPuts) = ([], [that put])` the claim asserts. -/
theorem aggregate_pair_order_counterexample :
    fetch_and_calculate_option_returns 5 [cChain] false false
        = some ([tagRow "d1" 5 (calcPutRow 5 30 cPutRaw)], ([] : List TaggedQuote))
    ∧ fetch_and_calculate_option_returns 5 [cChain] false false
        ≠ some (([] : List TaggedQuote), [tagRow "d1" 5 (calcPutRow 5 30 cPutRaw)]) := by
  have h1 : fetch_and_calculate_option_returns 5 [cChain] false false
      = some ([tagRow "d1" 5 (calcPutRow 5 30 cPutRaw)], ([] : List TaggedQuote)) := rfl
  refine ⟨h1, ?_⟩
  rw [h1]
  intro hcon
  simp at hcon

/-- C5 (amended): for every nonempty sequence of per-date batches the
result is the ordered concatenation of the per-date batches returned as
the pair `(allPuts, allCalls)` — puts first; the combined row count is the
sum of the per-date row counts, the input date order is preserved by the
concatenation, and every row keeps the expiration-date and stock-price
tags of its batch. -/
theorem aggregate_concatenation (stock_price : ℚ)
    (return_filter in_the_money : Bool) (chains : List ChainData)
    (hne : chains ≠ []) :
    fetch_and_calculate_option_returns stock_price chains return_filter in_the_money
      = some
          ((chains.map (fun c => (processChain stock_price return_filter in_the_money c).2)).flatten,
           (chains.map (fun c => (processChain stock_price return_filter in_the_money c).1)).flatten)
    ∧ ((chains.map (fun c => (processChain stock_price return_filter in_the_money c).1)).flatten).length
        = (chains.map (fun c => ((processChain stock_price return_filter in_the_money c).1).length)).sum
    ∧ ((chains.map (fun c => (processChain stock_price return_filter in_the_money c).2)).flatten).length
        = (chains.map (fun c => ((processChain stock_price return_filter in_the_money c).2).length)).sum
    ∧ (∀ c ∈ chains, ∀ q : TaggedQuote,
        (q ∈ (processChain stock_price return_filter in_the_money c).1
          ∨ q ∈ (processChain stock_price return_filter in_the_money c).2) →
        q.expirationDate = c.date ∧ q.stockPrice = stock_price) := by
  have hemp : chains.isEmpty = false := List.isEmpty_eq_false.mpr hne
  refine ⟨?_, ?_, ?_, ?_⟩
  · simp only [fetch_and_calculate_option_returns, hemp, Bool.false_eq_true,
      if_false, List.map_map]
    exact rfl
  · rw [List.length_flatten, List.map_map]
    exact rfl
  · rw [List.length_flatten, List.map_map]
    exact rfl
  · intro c _ q hq
    rcases hq with hq | hq <;>
    · simp only [processChain] at hq
      rcases List.mem_map.mp hq with ⟨a, -, rfl⟩
      exact ⟨rfl, rfl⟩

/-- Witness for C5's amended theorem at a concrete one-date chain list. -/
theorem aggregate_concatenation_witness :
    ([cChain] : List ChainData) ≠ []
    ∧ (fetch_and_calculate_option_returns 5 [cChain] false false
        = some
            (([cChain].map (fun c => (processChain 5 false false c).2)).flatten,
             ([cChain].map (fun c => (processChain 5 false false c).1)).flatten)
      ∧ (([cChain].map (fun c => (processChain 5 false false c).1)).flatten).length
          = ([cChain].map (fun c => ((processChain 5 false false c).1).length)).sum
      ∧ (([cChain].map (fun c => (processChain 5 false false c).2)).flatten).length
          = ([cChain].map (fun c => ((processChain 5 false false c).2).length)).sum
      ∧ (∀ c ∈ ([cChain] : List ChainData), ∀ q : TaggedQuote,
          (q ∈ (processChain 5 false false c).1 ∨ q ∈ (processChain 5 false false c).2) →
          q.expirationDate = c.date ∧ q.stockPrice = 5)) :=
  ⟨List.cons_ne_nil _ _,
    aggregate_concatenation 5 false false [cChain] (List.cons_ne_nil _ _)⟩

/-- In a batch in which no two rows share a (strike, expiration date)
pair, the rows grouped at the key of a row of the batch are exactly that
row. -/
lemma matchKey_single (l : List TaggedQuote) (x : TaggedQuote)
    (hnd : l.Pairwise fun a b =>
      ¬(a.strike = b.strike ∧ a.expirationDate = b.expirationDate))
    (hx : x ∈ l) :
    l.filter (fun q =>
      decide (q.strike = x.strike ∧ q.expirationDate = x.expirationDate)) = [x] := by
  induction l with
  | nil => cases hx
  | cons h t ih =>
    rcases List.pairwise_cons.mp hnd with ⟨hh, ht⟩
    rcases List.mem_cons.mp hx with rfl | hxt
    · rw [List.filter_cons, if_pos (by simp)]
      congr 1
      apply List.filter_eq_nil_iff.mpr
      intro a ha
      simp only [decide_eq_true_eq]
      intro hcon
      exact hh a ha ⟨hcon.1.symm, hcon.2.symm⟩
    · rw [List.filter_cons, if_neg ?_, ih ht hxt]
      simp only [decide_eq_true_eq]
      exact hh x hxt

/-- The pandas mean of a group of finite values is their arithmetic
mean. -/
lemma emean_map_fin (vs : List ℚ) (hne : vs ≠ []) :
    emean (vs.map EFloat.fin) = EFloat.fin (vs.sum / vs.length) := by
  have hfilt : (vs.map EFloat.fin).filter (fun x => decide (x ≠ EFloat.nan))
      = vs.map EFloat.fin := by
    apply List.filter_eq_self.mpr
    intro a ha
    rcases List.mem_map.mp ha with ⟨v, -, rfl⟩
    simp
  have hemp : (vs.map EFloat.fin).isEmpty = false := by
    rw [List.isEmpty_eq_false]
    simpa using hne
  have hall : (vs.map EFloat.fin).all (fun x => x.isFinite) = true := by
    rw [List.all_eq_true]
    intro a ha
    rcases List.mem_map.mp ha with ⟨v, -, rfl⟩
    rfl
  have hfm : (vs.map EFloat.fin).filterMap EFloat.toRatOpt = vs := by
    rw [List.filterMap_map]
    have hcomp : (EFloat.toRatOpt ∘ EFloat.fin) = some := rfl
    rw [hcomp, List.filterMap_some]
  simp only [emean, hfilt, hemp, hall, hfm, List.length_map,
    Bool.false_eq_true, if_false, if_true]

/-- C6: reading the pivot built from a batch reproduces the batch: for a
metric column whose values are finite (as `bid` and the clamped
`Annualized Return` are), (i) if no two rows of the batch share a
(strike, expiration date) pair, the cell at a row's key is exactly that
row's value; (ii) a (strike, date) combination with no rows in the batch
is the explicit missing marker `none`, not zero; (iii) when several rows
share a key, the cell is the average of their values. -/
theorem pivot_readback (data : List TaggedQuote) (metric : TaggedQuote → EFloat)
    (hfin : ∀ q ∈ data, (metric q).isFinite = true) :
    ((data.Pairwise fun a b =>
        ¬(a.strike = b.strike ∧ a.expirationDate = b.expirationDate)) →
      ∀ q ∈ data,
        build_pivot_table data metric q.strike q.expirationDate = some (metric q))
    ∧ (∀ (strike : ℚ) (date : String),
        data.filter (fun q => decide (q.strike = strike ∧ q.expirationDate = date)) = [] →
        build_pivot_table data metric strike date = none)
    ∧ (∀ (strike : ℚ) (date : String) (vs : List ℚ), vs ≠ [] →
        (data.filter (fun q =>
            decide (q.strike = strike ∧ q.expirationDate = date))).map metric
          = vs.map EFloat.fin →
        build_pivot_table data metric strike date
          = some (EFloat.fin (vs.sum / vs.length))) := by
  refine ⟨?_, ?_, ?_⟩
  · intro hnd q hq
    obtain ⟨v, hv⟩ : ∃ v, metric q = EFloat.fin v := by
      have hfq := hfin q hq
      cases hmq : metric q with
      | fin v => exact ⟨v, rfl⟩
      | pinf => rw [hmq] at hfq; exact absurd hfq (by decide)
      | ninf => rw [hmq] at hfq; exact absurd hfq (by decide)
      | nan => rw [hmq] at hfq; exact absurd hfq (by decide)
    have hm := matchKey_single data q hnd hq
    simp only [build_pivot_table, hm, List.isEmpty_cons, Bool.false_eq_true,
      if_false, List.map_cons, List.map_nil]
    rw [hv]
    have hone : emean ([v].map EFloat.fin) = EFloat.fin ([v].sum / [v].length) :=
      emean_map_fin [v] (List.cons_ne_nil _ _)
    simp only [List.map_cons, List.map_nil] at hone
    rw [hone]
    norm_num
  · intro s d h
    simp only [build_pivot_table, h]
    rfl
  · intro s d vs hvs hmap
    have hgne : data.filter (fun q =>
        decide (q.strike = s ∧ q.expirationDate = d)) ≠ [] := by
      intro h0
      rw [h0] at hmap
      exact hvs (by simpa using hmap.symm)
    have hieq : (data.filter (fun q =>
        decide (q.strike = s ∧ q.expirationDate = d))).isEmpty = false :=
      List.isEmpty_eq_false.mpr hgne
    simp only [build_pivot_table]
    rw [if_neg (by simp only [hieq]; exact Bool.false_ne_true), hmap,
      emean_map_fin vs hvs]

/-- Witness for C6 at a concrete two-row batch and the `bid` metric. -/
theorem pivot_readback_witness :
    (∀ q ∈ [pq1, pq2], (metricBid q).isFinite = true)
    ∧ ((([pq1, pq2] : List TaggedQuote).Pairwise fun a b =>
          ¬(a.strike = b.strike ∧ a.expirationDate = b.expirationDate)) →
        ∀ q ∈ [pq1, pq2],
          build_pivot_table [pq1, pq2] metricBid q.strike q.expirationDate
            = some (metricBid q))
      ∧ (∀ (strike : ℚ) (date : String),
          ([pq1, pq2] : List TaggedQuote).filter
              (fun q => decide (q.strike = strike ∧ q.expirationDate = date)) = [] →
          build_pivot_table [pq1, pq2] metricBid strike date = none)
      ∧ (∀ (strike : ℚ) (date : String) (vs : List ℚ), vs ≠ [] →
          (([pq1, pq2] : List TaggedQuote).filter
              (fun q => decide (q.strike = strike ∧ q.expirationDate = date))).map metricBid
            = vs.map EFloat.fin →
          build_pivot_table [pq1, pq2] metricBid strike date
            = some (EFloat.fin (vs.sum / vs.length))) :=
  ⟨by decide, pivot_readback [pq1, pq2] metricBid (by decide)⟩
